import Mathlib

/-!
Verification of the ToolHive Workload Runtime Plane specification against the
source code.  Go strings are modelled as `List Char`; Go maps as association
lists with overwrite-on-insert; fallible or panicking code returns `Option`.
-/

set_option maxHeartbeats 1000000
set_option maxRecDepth 16384
set_option linter.unusedVariables false

namespace ToolHive

/-! ### Splitting a document into lines (model of reading a text file line by line) -/

/-- Splits a character sequence at newline characters.  `splitNL s` is the list of
lines of `s`; a document ending in a newline yields a trailing empty line. -/
def splitNL : List Char → List (List Char)
  | [] => [[]]
  | c :: cs =>
    if c = '\n' then [] :: splitNL cs
    else
      match splitNL cs with
      | [] => [[c]]
      | l :: ls => (c :: l) :: ls

theorem splitNL_ne_nil (s : List Char) : splitNL s ≠ [] := by
  cases s with
  | nil => simp [splitNL]
  | cons c cs =>
    simp only [splitNL]
    split
    · simp
    · split
      · simp
      · simp

/-- A newline-free segment followed by a newline contributes exactly one line. -/
theorem splitNL_line (l : List Char) (rest : List Char) (hl : '\n' ∉ l) :
    splitNL (l ++ '\n' :: rest) = l :: splitNL rest := by
  induction l with
  | nil => simp [splitNL]
  | cons c cs ih =>
    have hc : c ≠ '\n' := fun h => hl (h ▸ List.mem_cons_self c cs)
    have hcs : '\n' ∉ cs := fun h => hl (List.mem_cons_of_mem c h)
    simp only [List.cons_append, splitNL, if_neg hc, List.append_eq]
    rw [ih hcs]

/-! ### C1: dirty-byte recovery on container stdout
(`parseAndForwardJSONRPC`, `sanitizeJSONString`, `sanitizeBinaryString`, `isSpace`
in pkg/transport/stdio.go) -/

/-- Go `unicode.IsPrint` restricted to the ASCII range (codepoints below 128),
where it holds exactly for `0x20 ≤ c ≤ 0x7E`.  All claim statements below are
scoped to ASCII lines, on which this model agrees with Go. -/
def goIsPrint (c : Char) : Bool := 0x20 ≤ c.toNat && c.toNat ≤ 0x7E

/-- Source `isSpace`: space characters accepted by the sanitizer, exactly
`' '` (U+0020) and `'\n'` (U+000A). -/
def isSpace (r : Char) : Bool := r = ' ' || r = '\n'

/-- Go `strings.Index` for a single-character needle: index of the first occurrence. -/
def strIndex : List Char → Char → Option Nat
  | [], _ => none
  | x :: xs, c => if x = c then some 0 else (strIndex xs c).map (· + 1)

/-- Go `strings.LastIndex` for a single-character needle: index of the last occurrence. -/
def strLastIndex (input : List Char) (c : Char) : Option Nat :=
  (strIndex input.reverse c).map (fun i => input.length - 1 - i)

/-- Source `sanitizeBinaryString`: extract the substring from the first `{` to the
last `}` and drop every character that is neither printable nor `isSpace`. -/
def sanitizeBinaryString (input : List Char) : List Char :=
  match strIndex input '{' with
  | none => []
  | some startIdx =>
    match strLastIndex input '}' with
    | none => []
    | some endIdx =>
      if endIdx < startIdx then []
      else
        ((input.drop startIdx).take (endIdx + 1 - startIdx)).filter
          (fun r => goIsPrint r || isSpace r)

/-- Source `sanitizeJSONString` delegates to `sanitizeBinaryString`. -/
def sanitizeJSONString (input : List Char) : List Char := sanitizeBinaryString input

/-- Source `parseAndForwardJSONRPC`, binary-detection loop: a line "contains binary
data" when some character is neither printable nor `isSpace`. -/
def hasBinaryData (line : List Char) : Bool :=
  line.any (fun c => !goIsPrint c && !isSpace c)

/-- Source `parseAndForwardJSONRPC`, choice of the string handed to
`jsonrpc2.DecodeMessage`: the sanitized line when binary data was detected,
otherwise the raw line. -/
def jsonrpcDecodeInput (line : List Char) : List Char :=
  if hasBinaryData line then sanitizeJSONString line else line

theorem strIndex_append_not_mem {c : Char} {g : List Char} (hg : c ∉ g)
    (rest : List Char) : strIndex (g ++ c :: rest) c = some g.length := by
  induction g with
  | nil => simp [strIndex]
  | cons x xs ih =>
    have hx : x ≠ c := fun h => hg (h ▸ List.mem_cons_self x xs)
    have hxs : c ∉ xs := fun h => hg (List.mem_cons_of_mem x h)
    simp only [List.cons_append, strIndex, if_neg hx, List.append_eq]
    rw [ih hxs]
    simp

theorem strLastIndex_append_not_mem {c : Char} {g : List Char} (hg : c ∉ g)
    (front : List Char) : strLastIndex (front ++ c :: g) c = some front.length := by
  have hrev : c ∉ g.reverse := fun h => hg (List.mem_reverse.mp h)
  have hrw : (front ++ c :: g).reverse = g.reverse ++ c :: front.reverse := by
    simp
  rw [strLastIndex, hrw, strIndex_append_not_mem hrev]
  simp only [Option.map_some']
  simp only [Option.some.injEq, List.length_reverse, List.length_append,
    List.length_cons]
  omega

/-- A concrete valid JSON-RPC object text, used as the embedded `{valid-json}`
part of C1 inputs: the text of a pong response. -/
def jsonEx : List Char :=
  ['{', '"', 'j', 's', 'o', 'n', 'r', 'p', 'c', '"', ':', '"', '2', '.', '0', '"',
   ',', '"', 'i', 'd', '"', ':', '1', ',', '"', 'r', 'e', 's', 'u', 'l', 't', '"',
   ':', '"', 'p', 'o', 'n', 'g', '"', '}']

/-- C1, counterexample: for the stdout line `a{valid-json}` (printable garbage
before a valid JSON object) the bridge makes no recovery attempt — the line has
no byte outside the printable/newline set — and the string handed to the
JSON-RPC decoder is the whole dirty line, not the valid JSON object, so the
object is not parsed and forwarded as the claim states. -/
theorem c1_counterexample :
    hasBinaryData ('a' :: jsonEx) = false ∧
      jsonrpcDecodeInput ('a' :: jsonEx) ≠ jsonEx := by
  decide

/-- C1 (amended): when the stdout line `g1 ++ j ++ g2` contains at least one byte
outside the printable/space/newline set, the garbage before the object contains
no `{`, the garbage after it contains no `}`, and the JSON text `j` starts with
`{`, ends with `}` and consists of printable or space characters, then the
recovery attempt is made and the string handed to the JSON-RPC decoder is
exactly `j`.  (Scoped to ASCII lines, where `goIsPrint` agrees with Go
`unicode.IsPrint`.) -/
theorem c1_dirty_byte_recovery (g1 j g2 : List Char)
    (hascii : ∀ c ∈ g1 ++ j ++ g2, c.toNat < 128)
    (hg1 : '{' ∉ g1) (hg2 : '}' ∉ g2)
    (hhead : ∃ jr, j = '{' :: jr)
    (hlast : ∃ j0, j = j0 ++ ['}'])
    (hjprint : ∀ c ∈ j, goIsPrint c = true ∨ isSpace c = true)
    (hbin : hasBinaryData (g1 ++ j ++ g2) = true) :
    jsonrpcDecodeInput (g1 ++ j ++ g2) = sanitizeJSONString (g1 ++ j ++ g2) ∧
      sanitizeJSONString (g1 ++ j ++ g2) = j := by
  obtain ⟨jr, hjr⟩ := hhead
  obtain ⟨j0, hj0⟩ := hlast
  have hstart : strIndex (g1 ++ j ++ g2) '{' = some g1.length := by
    have hsh : g1 ++ j ++ g2 = g1 ++ '{' :: (jr ++ g2) := by
      rw [hjr]; simp
    rw [hsh, strIndex_append_not_mem hg1]
  have hend : strLastIndex (g1 ++ j ++ g2) '}' = some (g1.length + j0.length) := by
    have hsh : g1 ++ j ++ g2 = (g1 ++ j0) ++ '}' :: g2 := by
      rw [hj0]; simp
    rw [hsh, strLastIndex_append_not_mem hg2]
    simp
  refine ⟨by simp only [jsonrpcDecodeInput, hbin, if_true], ?_⟩
  have hif : ¬ (g1.length + j0.length < g1.length) := by omega
  have hdrop : (g1 ++ j ++ g2).drop g1.length = j ++ g2 := by
    rw [List.append_assoc]
    exact List.drop_left g1 (j ++ g2)
  have hlen : g1.length + j0.length + 1 - g1.length = j.length := by
    rw [hj0]
    simp
    omega
  simp only [sanitizeJSONString, sanitizeBinaryString, hstart, hend, if_neg hif,
    hdrop, hlen, List.take_left]
  exact List.filter_eq_self.mpr fun c hc => by
    rcases hjprint c hc with h | h <;> simp [h]

/-- C1 witness: the amended theorem applied to the concrete line
`\x01{"jsonrpc":"2.0","id":1,"result":"pong"}`. -/
theorem c1_dirty_byte_recovery_witness :
    jsonrpcDecodeInput ('\x01' :: jsonEx) = jsonEx := by
  have h := c1_dirty_byte_recovery ['\x01'] jsonEx [] (by decide) (by decide)
    (by decide) ⟨jsonEx.tail, by decide⟩ ⟨jsonEx.dropLast, by decide⟩
    (by decide) (by decide)
  simpa using h.1.trans h.2

/-! ### C2-C4: permission profiles and the egress (squid) ACL document
(`writeOutboundACLs`, `writeHttpAccessRules`, `writeIngressProxyConfig`,
`createTempSquidConf` in pkg/container/docker/client.go) -/

/-- Source `permissions.OutboundNetworkPermissions`. -/
structure OutboundNetworkPermissions where
  insecureAllowAll : Bool
  allowTransport : List (List Char)
  allowHost : List (List Char)
  allowPort : List Int

/-- Source `permissions.NetworkPermissions`; the `outbound` field is a Go
pointer, hence optional. -/
structure NetworkPermissions where
  outbound : Option OutboundNetworkPermissions

/-- Go `strings.ToUpper`, restricted to ASCII where `Char.toUpper` agrees with it. -/
def goToUpper (s : List Char) : List Char := s.map Char.toUpper

/-- Source `writeOutboundACLs`, ports loop: ` <strconv.Itoa(port)>` per entry. -/
def portsJoin (ps : List Int) : List Char :=
  ps.flatMap fun port => ' ' :: (toString port).data

/-- Source `writeOutboundACLs`, hosts loop: ` <host>` per entry. -/
def hostsJoin (hs : List (List Char)) : List Char :=
  hs.flatMap fun host => ' ' :: host

/-- Source `writeOutboundACLs`, methods loop: a `TCP` entry (after upcasing)
first emits ` CONNECT GET POST HEAD`, then the uppercased entry itself is
emitted unconditionally. -/
def methodsJoin (ts : List (List Char)) : List Char :=
  ts.flatMap fun mthd =>
    (if goToUpper mthd = "TCP".data then " CONNECT GET POST HEAD".data else []) ++
      ' ' :: goToUpper mthd

/-- Source `writeOutboundACLs`: emit the allowed-ports, allowed-destinations and
allowed-methods access lists for the non-empty allow-lists.  The methods block
carries no trailing newline. -/
def writeOutboundACLs (outbound : OutboundNetworkPermissions) : List Char :=
  (if outbound.allowPort.length > 0 then
    "# Define allowed ports\nacl allowed_ports port".data ++
      portsJoin outbound.allowPort ++ ['\n']
  else []) ++
  (if outbound.allowHost.length > 0 then
    "# Define allowed destinations\nacl allowed_dsts dstdomain".data ++
      hostsJoin outbound.allowHost ++ ['\n']
  else []) ++
  (if outbound.allowTransport.length > 0 then
    "# Define allowed methods\nacl allowed_methods method".data ++
      methodsJoin outbound.allowTransport
  else [])

/-- Source `writeHttpAccessRules`, accumulation of the `conditions` slice: one
name per non-empty allow-list. -/
def accessRuleConditions (outbound : OutboundNetworkPermissions) : List (List Char) :=
  (if outbound.allowPort.length > 0 then ["allowed_ports".data] else []) ++
  (if outbound.allowHost.length > 0 then ["allowed_dsts".data] else []) ++
  (if outbound.allowTransport.length > 0 then ["allowed_methods".data] else [])

/-- Go `strings.Join` with separator `" "`. -/
def joinSpace : List (List Char) → List Char
  | [] => []
  | [x] => x
  | x :: xs => x ++ ' ' :: joinSpace xs

/-- Source `writeHttpAccessRules`: when some allow-list is non-empty, grant
`http_access allow` gated on the conjunction of the non-empty lists. -/
def writeHttpAccessRules (outbound : OutboundNetworkPermissions) : List Char :=
  if (accessRuleConditions outbound).length > 0 then
    "\n# Define http_access rules\n".data ++
      "http_access allow ".data ++ joinSpace (accessRuleConditions outbound) ++ ['\n']
  else []

/-- Go `strings.Split(port, "/")[0]`. -/
def portNumOf (port : List Char) : List Char := port.takeWhile (· ≠ '/')

/-- Source `writeIngressProxyConfig`: one reverse-proxy accelerator block per
ingress port. -/
def writeIngressProxyConfig (ingressPorts : List (List Char))
    (serverHostname : List Char) : List Char :=
  ingressPorts.flatMap fun port =>
    let portNum := portNumOf port
    "\n# Reverse proxy setup for port ".data ++ portNum ++ "\n".data ++
      "http_port ".data ++ portNum ++ " accel defaultsite=".data ++ serverHostname ++
      "\n".data ++
      "cache_peer ".data ++ serverHostname ++ " parent ".data ++ portNum ++
      " 0 no-query originserver name=origin_".data ++ portNum ++ "\n".data ++
      "acl site_".data ++ portNum ++ " dstdomain ".data ++ serverHostname ++
      " 127.0.0.1\n".data ++
      "http_access allow site_".data ++ portNum ++ "\n".data

/-- Source `createTempSquidConf`, fixed leading configuration block. -/
def squidConfHeader (serverHostname : List Char) : List Char :=
  "http_port 3128\n".data ++
    "visible_hostname ".data ++ serverHostname ++ "-egress\n".data ++
    "access_log stdio:/var/log/squid/access.log squid\n".data ++
    "pid_filename /var/run/squid/squid.pid\n".data ++
    "# Disable memory and disk caching\n".data ++
    "cache deny all\n".data ++
    "cache_mem 0 MB\n".data ++
    "maximum_object_size 0 KB\n".data ++
    "maximum_object_size_in_memory 0 KB\n".data ++
    "# Don\x27t use cache directories\n".data ++
    "cache_dir null /tmp\n".data ++
    "cache_store_log none\n\n".data

/-- Source `createTempSquidConf` allow-all test:
`networkPermissions == nil || (networkPermissions.Outbound != nil &&
networkPermissions.Outbound.InsecureAllowAll)`. -/
def allowAllCondition : Option NetworkPermissions → Bool
  | none => true
  | some np =>
    match np.outbound with
    | some o => o.insecureAllowAll
    | none => false

/-- Source `createTempSquidConf`: the full egress ACL document.  In the branch
where network permissions are present but `Outbound` is nil, the Go code
dereferences the nil `Outbound` pointer inside `writeOutboundACLs` (a panic),
modelled as `none`. -/
def createTempSquidConf (networkPermissions : Option NetworkPermissions)
    (serverHostname : List Char) (ingressPorts : List (List Char)) :
    Option (List Char) :=
  let header := squidConfHeader serverHostname
  let ingress := writeIngressProxyConfig ingressPorts serverHostname
  let deny := "http_access deny all\n".data
  if allowAllCondition networkPermissions then
    some (header ++ "# Allow all traffic\nhttp_access allow all\n".data ++
      ingress ++ deny)
  else
    match networkPermissions with
    | none => none
    | some np =>
      match np.outbound with
      | none => none
      | some outbound =>
        some (header ++ writeOutboundACLs outbound ++ writeHttpAccessRules outbound ++
          ingress ++ deny)

/-! ### Line structure of the generated squid document -/

theorem noNL_append2 {a b : List Char} (ha : '\n' ∉ a) (hb : '\n' ∉ b) :
    '\n' ∉ a ++ b := by
  intro hm
  rcases List.mem_append.mp hm with h | h
  · exact ha h
  · exact hb h

theorem noNL_append3 {a b c : List Char} (ha : '\n' ∉ a) (hb : '\n' ∉ b)
    (hc : '\n' ∉ c) : '\n' ∉ a ++ b ++ c :=
  noNL_append2 (noNL_append2 ha hb) hc

theorem noNL_flatMap {α : Type} {l : List α} {f : α → List Char}
    (hf : ∀ a ∈ l, '\n' ∉ f a) : '\n' ∉ l.flatMap f := by
  intro hm
  rcases List.mem_flatMap.mp hm with ⟨a, ha, hmem⟩
  exact hf a ha hmem

theorem toUpper_ne_nl {c : Char} (hc : c ≠ '\n') : Char.toUpper c ≠ '\n' := by
  intro h
  by_cases hcond : c.toNat ≥ 97 ∧ c.toNat ≤ 122
  · obtain ⟨n, hn1, hn2, hceq⟩ : ∃ n, 97 ≤ n ∧ n ≤ 122 ∧ c = Char.ofNat n :=
      ⟨c.toNat, hcond.1, hcond.2, (Char.ofNat_toNat c).symm⟩
    subst hceq
    interval_cases n <;> exact absurd h (by decide)
  · have heq : Char.toUpper c = c := by
      show (if c.toNat ≥ 97 ∧ c.toNat ≤ 122 then Char.ofNat (c.toNat - 32) else c) = c
      rw [if_neg hcond]
    exact hc (heq ▸ h)

theorem noNL_goToUpper {m : List Char} (hm : '\n' ∉ m) : '\n' ∉ goToUpper m := by
  intro h
  rcases List.mem_map.mp h with ⟨c, hc, hcu⟩
  have hcn : c ≠ '\n' := fun hcn => hm (hcn ▸ hc)
  exact toUpper_ne_nl hcn hcu

/-- A line of the document cannot equal another line when the two (possibly
abstract-suffixed) lines disagree at an index inside both concrete prefixes. -/
theorem append_ne_append_of_diff {P Q : List Char} (i : Nat) (x y : List Char)
    (hiP : i < P.length) (hiQ : i < Q.length) (hne : P[i]? ≠ Q[i]?) :
    P ++ x ≠ Q ++ y := by
  intro he
  apply hne
  have h1 : (P ++ x)[i]? = P[i]? := List.getElem?_append_left hiP
  have h2 : (Q ++ y)[i]? = Q[i]? := List.getElem?_append_left hiQ
  rw [← h1, ← h2, he]

theorem ne_append_of_diff (L Q : List Char) (i : Nat) (y : List Char)
    (hiL : i < L.length) (hiQ : i < Q.length) (hne : L[i]? ≠ Q[i]?) :
    L ≠ Q ++ y := by
  have h := append_ne_append_of_diff i [] y hiL hiQ hne
  simpa using h

theorem splitNL_nl_cons (rest : List Char) :
    splitNL ('\n' :: rest) = [] :: splitNL rest := by
  simp [splitNL]

theorem splitNL_line2 (a b rest : List Char) (ha : '\n' ∉ a) (hb : '\n' ∉ b) :
    splitNL (a ++ (b ++ '\n' :: rest)) = (a ++ b) :: splitNL rest := by
  have hsh : a ++ (b ++ '\n' :: rest) = (a ++ b) ++ '\n' :: rest := by
    simp
  rw [hsh, splitNL_line _ _ (noNL_append2 ha hb)]

theorem splitNL_line3 (a h b rest : List Char) (ha : '\n' ∉ a) (hh : '\n' ∉ h)
    (hb : '\n' ∉ b) :
    splitNL (a ++ (h ++ (b ++ '\n' :: rest))) = (a ++ (h ++ b)) :: splitNL rest := by
  have hsh : a ++ (h ++ (b ++ '\n' :: rest)) = (a ++ (h ++ b)) ++ '\n' :: rest := by
    simp
  rw [hsh, splitNL_line _ _ (noNL_append2 ha (noNL_append2 hh hb))]

/-- The lines of the fixed squid configuration header. -/
def squidHeaderLines (h : List Char) : List (List Char) :=
  "http_port 3128".data ::
    ("visible_hostname ".data ++ (h ++ "-egress".data)) ::
    "access_log stdio:/var/log/squid/access.log squid".data ::
    "pid_filename /var/run/squid/squid.pid".data ::
    "# Disable memory and disk caching".data ::
    "cache deny all".data ::
    "cache_mem 0 MB".data ::
    "maximum_object_size 0 KB".data ::
    "maximum_object_size_in_memory 0 KB".data ::
    "# Don\x27t use cache directories".data ::
    "cache_dir null /tmp".data ::
    "cache_store_log none".data :: [[]]

theorem squidConfHeader_lines (h rest : List Char) (hh : '\n' ∉ h) :
    splitNL (squidConfHeader h ++ rest) = squidHeaderLines h ++ splitNL rest := by
  have heq : squidConfHeader h ++ rest =
      "http_port 3128".data ++ '\n' ::
      ("visible_hostname ".data ++ (h ++ ("-egress".data ++ '\n' ::
      ("access_log stdio:/var/log/squid/access.log squid".data ++ '\n' ::
      ("pid_filename /var/run/squid/squid.pid".data ++ '\n' ::
      ("# Disable memory and disk caching".data ++ '\n' ::
      ("cache deny all".data ++ '\n' ::
      ("cache_mem 0 MB".data ++ '\n' ::
      ("maximum_object_size 0 KB".data ++ '\n' ::
      ("maximum_object_size_in_memory 0 KB".data ++ '\n' ::
      ("# Don\x27t use cache directories".data ++ '\n' ::
      ("cache_dir null /tmp".data ++ '\n' ::
      ("cache_store_log none".data ++ '\n' :: '\n' :: rest))))))))))))) := by
    simp [squidConfHeader]
  rw [heq]
  rw [splitNL_line "http_port 3128".data _ (by decide)]
  rw [splitNL_line3 "visible_hostname ".data h "-egress".data _ (by decide) hh
    (by decide)]
  rw [splitNL_line "access_log stdio:/var/log/squid/access.log squid".data _
    (by decide)]
  rw [splitNL_line "pid_filename /var/run/squid/squid.pid".data _ (by decide)]
  rw [splitNL_line "# Disable memory and disk caching".data _ (by decide)]
  rw [splitNL_line "cache deny all".data _ (by decide)]
  rw [splitNL_line "cache_mem 0 MB".data _ (by decide)]
  rw [splitNL_line "maximum_object_size 0 KB".data _ (by decide)]
  rw [splitNL_line "maximum_object_size_in_memory 0 KB".data _ (by decide)]
  rw [splitNL_line "# Don\x27t use cache directories".data _ (by decide)]
  rw [splitNL_line "cache_dir null /tmp".data _ (by decide)]
  rw [splitNL_line "cache_store_log none".data _ (by decide)]
  rw [splitNL_nl_cons]
  rfl

theorem allowAllBlock_lines (rest : List Char) :
    splitNL ("# Allow all traffic\nhttp_access allow all\n".data ++ rest) =
      "# Allow all traffic".data :: "http_access allow all".data :: splitNL rest := by
  have heq : "# Allow all traffic\nhttp_access allow all\n".data ++ rest =
      "# Allow all traffic".data ++ '\n' ::
        ("http_access allow all".data ++ '\n' :: rest) := by
    simp
  rw [heq]
  rw [splitNL_line "# Allow all traffic".data _ (by decide)]
  rw [splitNL_line "http_access allow all".data _ (by decide)]

theorem digitChar_ne_nl (m : Nat) : Nat.digitChar m ≠ '\n' := by
  rcases Nat.lt_or_ge m 16 with h | h
  · interval_cases m <;> decide
  · unfold Nat.digitChar
    iterate 16 rw [if_neg (by omega)]
    decide

theorem toDigitsCore_chars (b : Nat) (f : Nat) :
    ∀ (n : Nat) (ds : List Char), ∀ c ∈ Nat.toDigitsCore b f n ds,
      c ∈ ds ∨ ∃ m, c = Nat.digitChar m := by
  induction f with
  | zero =>
    intro n ds c hc
    exact Or.inl hc
  | succ f ih =>
    intro n ds c hc
    simp only [Nat.toDigitsCore] at hc
    split at hc
    · rcases List.mem_cons.mp hc with h | h
      · exact Or.inr ⟨n % b, h⟩
      · exact Or.inl h
    · rcases ih (n / b) (Nat.digitChar (n % b) :: ds) c hc with h | h
      · rcases List.mem_cons.mp h with h | h
        · exact Or.inr ⟨n % b, h⟩
        · exact Or.inl h
      · exact Or.inr h

theorem noNL_natRepr (n : Nat) : '\n' ∉ (Nat.repr n).data := by
  intro h
  have hmem : '\n' ∈ Nat.toDigits 10 n := by
    simpa [Nat.repr, List.asString] using h
  rcases toDigitsCore_chars 10 (n + 1) n [] '\n' hmem with h' | ⟨m, hm⟩
  · simp at h'
  · exact digitChar_ne_nl m hm.symm

theorem noNL_intToString (p : Int) : '\n' ∉ (toString p).data := by
  cases p with
  | ofNat m => simpa [toString, Int.repr] using noNL_natRepr m
  | negSucc m =>
    intro h
    have : '\n' ∈ ("-" ++ Nat.repr (m + 1)).data := by
      simpa [toString, Int.repr] using h
    rw [String.data_append] at this
    rcases List.mem_append.mp this with h' | h'
    · simp at h'
    · exact noNL_natRepr (m + 1) h'

theorem noNL_portsJoin (ps : List Int) : '\n' ∉ portsJoin ps := by
  apply noNL_flatMap
  intro p _ hmem
  rcases List.mem_cons.mp hmem with h | h
  · exact absurd h (by decide)
  · exact noNL_intToString p h

theorem noNL_hostsJoin {hs : List (List Char)} (hh : ∀ x ∈ hs, '\n' ∉ x) :
    '\n' ∉ hostsJoin hs := by
  apply noNL_flatMap
  intro x hx hmem
  rcases List.mem_cons.mp hmem with h | h
  · exact absurd h (by decide)
  · exact hh x hx h

theorem noNL_methodsJoin {ts : List (List Char)} (hts : ∀ m ∈ ts, '\n' ∉ m) :
    '\n' ∉ methodsJoin ts := by
  apply noNL_flatMap
  intro m hm
  apply noNL_append2
  · split
    · decide
    · simp
  · intro h
    rcases List.mem_cons.mp h with h | h
    · exact absurd h (by decide)
    · exact noNL_goToUpper (hts m hm) h

theorem noNL_joinSpace {L : List (List Char)} (hL : ∀ x ∈ L, '\n' ∉ x) :
    '\n' ∉ joinSpace L := by
  induction L with
  | nil => simp [joinSpace]
  | cons x xs ih =>
    cases xs with
    | nil => simpa [joinSpace] using hL x (by simp)
    | cons y ys =>
      show '\n' ∉ x ++ ' ' :: joinSpace (y :: ys)
      intro hm
      rcases List.mem_append.mp hm with h | h
      · exact hL x (by simp) h
      · rcases List.mem_cons.mp h with h | h
        · exact absurd h (by decide)
        · exact ih (fun z hz => hL z (List.mem_cons_of_mem x hz)) h

theorem noNL_accessConds (o : OutboundNetworkPermissions) :
    '\n' ∉ joinSpace (accessRuleConditions o) := by
  apply noNL_joinSpace
  intro x hx
  rcases List.mem_append.mp hx with hx | hx
  · rcases List.mem_append.mp hx with hx | hx
    · split at hx
      · simp at hx; subst hx; decide
      · simp at hx
    · split at hx
      · simp at hx; subst hx; decide
      · simp at hx
  · split at hx
    · simp at hx; subst hx; decide
    · simp at hx

theorem noNL_portNumOf {p : List Char} (hp : '\n' ∉ p) : '\n' ∉ portNumOf p := by
  intro h
  exact hp ((List.takeWhile_sublist _).subset h)

/-! ### Line lemmas for the variable blocks of the squid document -/

theorem portsBlock_lines (J rest : List Char) (hJ : '\n' ∉ J) :
    splitNL ("# Define allowed ports\nacl allowed_ports port".data ++
        (J ++ '\n' :: rest)) =
      "# Define allowed ports".data :: ("acl allowed_ports port".data ++ J) ::
        splitNL rest := by
  have heq : "# Define allowed ports\nacl allowed_ports port".data ++
      (J ++ '\n' :: rest) =
      "# Define allowed ports".data ++ '\n' ::
        ("acl allowed_ports port".data ++ (J ++ '\n' :: rest)) := by
    simp
  rw [heq, splitNL_line "# Define allowed ports".data _ (by decide),
    splitNL_line2 "acl allowed_ports port".data J rest (by decide) hJ]

theorem hostsBlock_lines (J rest : List Char) (hJ : '\n' ∉ J) :
    splitNL ("# Define allowed destinations\nacl allowed_dsts dstdomain".data ++
        (J ++ '\n' :: rest)) =
      "# Define allowed destinations".data ::
        ("acl allowed_dsts dstdomain".data ++ J) :: splitNL rest := by
  have heq : "# Define allowed destinations\nacl allowed_dsts dstdomain".data ++
      (J ++ '\n' :: rest) =
      "# Define allowed destinations".data ++ '\n' ::
        ("acl allowed_dsts dstdomain".data ++ (J ++ '\n' :: rest)) := by
    simp
  rw [heq, splitNL_line "# Define allowed destinations".data _ (by decide),
    splitNL_line2 "acl allowed_dsts dstdomain".data J rest (by decide) hJ]

theorem methodsRules_lines (J C rest : List Char) (hJ : '\n' ∉ J) (hC : '\n' ∉ C) :
    splitNL ("# Define allowed methods\nacl allowed_methods method".data ++
        (J ++ ("\n# Define http_access rules\n".data ++
          ("http_access allow ".data ++ (C ++ '\n' :: rest))))) =
      "# Define allowed methods".data ::
        ("acl allowed_methods method".data ++ J) ::
        "# Define http_access rules".data ::
        ("http_access allow ".data ++ C) :: splitNL rest := by
  have heq : "# Define allowed methods\nacl allowed_methods method".data ++
      (J ++ ("\n# Define http_access rules\n".data ++
        ("http_access allow ".data ++ (C ++ '\n' :: rest)))) =
      "# Define allowed methods".data ++ '\n' ::
        ("acl allowed_methods method".data ++ (J ++ '\n' ::
          ("# Define http_access rules".data ++ '\n' ::
            ("http_access allow ".data ++ (C ++ '\n' :: rest))))) := by
    simp
  rw [heq, splitNL_line "# Define allowed methods".data _ (by decide),
    splitNL_line2 "acl allowed_methods method".data J _ (by decide) hJ,
    splitNL_line "# Define http_access rules".data _ (by decide),
    splitNL_line2 "http_access allow ".data C rest (by decide) hC]

theorem rulesOnly_lines (C rest : List Char) (hC : '\n' ∉ C) :
    splitNL ("\n# Define http_access rules\n".data ++
        ("http_access allow ".data ++ (C ++ '\n' :: rest))) =
      [] :: "# Define http_access rules".data ::
        ("http_access allow ".data ++ C) :: splitNL rest := by
  have heq : "\n# Define http_access rules\n".data ++
      ("http_access allow ".data ++ (C ++ '\n' :: rest)) =
      '\n' :: ("# Define http_access rules".data ++ '\n' ::
        ("http_access allow ".data ++ (C ++ '\n' :: rest))) := by
    simp
  rw [heq, splitNL_nl_cons,
    splitNL_line "# Define http_access rules".data _ (by decide),
    splitNL_line2 "http_access allow ".data C rest (by decide) hC]

/-- The lines contributed by one ingress reverse-proxy block per port. -/
def ingressLines (ports : List (List Char)) (hstn : List Char) :
    List (List Char) :=
  ports.flatMap fun p =>
    [[],
     "# Reverse proxy setup for port ".data ++ portNumOf p,
     "http_port ".data ++ (portNumOf p ++ (" accel defaultsite=".data ++ hstn)),
     "cache_peer ".data ++ (hstn ++ (" parent ".data ++ (portNumOf p ++
       (" 0 no-query originserver name=origin_".data ++ portNumOf p)))),
     "acl site_".data ++ (portNumOf p ++ (" dstdomain ".data ++ (hstn ++
       " 127.0.0.1".data))),
     "http_access allow site_".data ++ portNumOf p]

theorem writeIngressProxyConfig_lines (ports : List (List Char))
    (hstn rest : List Char) (hh : '\n' ∉ hstn) (hp : ∀ p ∈ ports, '\n' ∉ p) :
    splitNL (writeIngressProxyConfig ports hstn ++ rest) =
      ingressLines ports hstn ++ splitNL rest := by
  induction ports with
  | nil => simp [writeIngressProxyConfig, ingressLines]
  | cons p ps ih =>
    have hpn : '\n' ∉ portNumOf p := noNL_portNumOf (hp p (List.mem_cons_self p ps))
    have hps : ∀ q ∈ ps, '\n' ∉ q := fun q hq => hp q (List.mem_cons_of_mem p hq)
    have h2 : '\n' ∉ "# Reverse proxy setup for port ".data ++ portNumOf p :=
      noNL_append2 (by decide) hpn
    have h3 : '\n' ∉ "http_port ".data ++ (portNumOf p ++
        (" accel defaultsite=".data ++ hstn)) :=
      noNL_append2 (by decide) (noNL_append2 hpn (noNL_append2 (by decide) hh))
    have h4 : '\n' ∉ "cache_peer ".data ++ (hstn ++ (" parent ".data ++
        (portNumOf p ++ (" 0 no-query originserver name=origin_".data ++
          portNumOf p)))) :=
      noNL_append2 (by decide) (noNL_append2 hh (noNL_append2 (by decide)
        (noNL_append2 hpn (noNL_append2 (by decide) hpn))))
    have h5 : '\n' ∉ "acl site_".data ++ (portNumOf p ++ (" dstdomain ".data ++
        (hstn ++ " 127.0.0.1".data))) :=
      noNL_append2 (by decide) (noNL_append2 hpn (noNL_append2 (by decide)
        (noNL_append2 hh (by decide))))
    have h6 : '\n' ∉ "http_access allow site_".data ++ portNumOf p :=
      noNL_append2 (by decide) hpn
    have heq : writeIngressProxyConfig (p :: ps) hstn ++ rest =
        '\n' :: (("# Reverse proxy setup for port ".data ++ portNumOf p) ++ '\n' ::
        (("http_port ".data ++ (portNumOf p ++ (" accel defaultsite=".data ++
          hstn))) ++ '\n' ::
        (("cache_peer ".data ++ (hstn ++ (" parent ".data ++ (portNumOf p ++
          (" 0 no-query originserver name=origin_".data ++ portNumOf p))))) ++
          '\n' ::
        (("acl site_".data ++ (portNumOf p ++ (" dstdomain ".data ++ (hstn ++
          " 127.0.0.1".data)))) ++ '\n' ::
        (("http_access allow site_".data ++ portNumOf p) ++ '\n' ::
        (writeIngressProxyConfig ps hstn ++ rest)))))) := by
      simp [writeIngressProxyConfig]
    rw [heq, splitNL_nl_cons, splitNL_line _ _ h2, splitNL_line _ _ h3,
      splitNL_line _ _ h4, splitNL_line _ _ h5, splitNL_line _ _ h6, ih hps]
    simp [ingressLines]

theorem denyBlock_lines :
    splitNL ("http_access deny all\n".data) =
      ["http_access deny all".data, []] := by
  decide

/-- The lines of the generated egress ACL document; the empty list when the
generation faults. -/
def squidLines (networkPermissions : Option NetworkPermissions)
    (serverHostname : List Char) (ingressPorts : List (List Char)) :
    List (List Char) :=
  (createTempSquidConf networkPermissions serverHostname ingressPorts).elim []
    splitNL

/-- C2, counterexample: a permission profile whose network permissions are
present but carry no outbound permissions (`Outbound == nil`).  The claim says
generation succeeds and emits `http_access allow all`; the code instead
dereferences the nil `Outbound` pointer inside `writeOutboundACLs` (modelled as
`none`), so the generation does not succeed. -/
theorem c2_counterexample :
    createTempSquidConf (some ⟨none⟩) "srv".data [] = none := by
  rfl

/-- C2 (amended): when the network permissions are entirely absent, or outbound
permissions are present with `insecure_allow_all = true`, the generation
succeeds and the document contains the line `http_access allow all`.  (When
network permissions are present but outbound is nil, the generation faults
instead.) -/
theorem c2_allow_all (np : Option NetworkPermissions) (hstn : List Char)
    (ports : List (List Char)) (hh : '\n' ∉ hstn) (hp : ∀ p ∈ ports, '\n' ∉ p)
    (hcase : np = none ∨ ∃ n o, np = some n ∧ n.outbound = some o ∧
      o.insecureAllowAll = true) :
    createTempSquidConf np hstn ports ≠ none ∧
      "http_access allow all".data ∈ squidLines np hstn ports := by
  have hcond : allowAllCondition np = true := by
    rcases hcase with hnone | ⟨n, o, hn, ho, hi⟩
    · subst hnone; rfl
    · subst hn; simp [allowAllCondition, ho, hi]
  have hdoc : createTempSquidConf np hstn ports =
      some (squidConfHeader hstn ++
        "# Allow all traffic\nhttp_access allow all\n".data ++
        writeIngressProxyConfig ports hstn ++ "http_access deny all\n".data) := by
    simp only [createTempSquidConf, hcond, if_true]
  refine ⟨by rw [hdoc]; exact Option.some_ne_none _, ?_⟩
  rw [squidLines, hdoc]
  have hassoc : squidConfHeader hstn ++
      "# Allow all traffic\nhttp_access allow all\n".data ++
      writeIngressProxyConfig ports hstn ++ "http_access deny all\n".data =
      squidConfHeader hstn ++
        ("# Allow all traffic\nhttp_access allow all\n".data ++
          (writeIngressProxyConfig ports hstn ++ "http_access deny all\n".data)) := by
    simp
  rw [Option.elim, hassoc, squidConfHeader_lines _ _ hh, allowAllBlock_lines,
    writeIngressProxyConfig_lines _ _ _ hh hp, denyBlock_lines]
  exact List.mem_append_right _ (List.mem_cons_of_mem _ (List.mem_cons_self _ _))

/-- C2 witness: the amended theorem at absent network permissions, hostname
`srv`, no ingress ports. -/
theorem c2_allow_all_witness :
    createTempSquidConf none "srv".data [] ≠ none ∧
      "http_access allow all".data ∈ squidLines none "srv".data [] :=
  c2_allow_all none "srv".data [] (by decide) (by simp) (Or.inl rfl)

/-- An outbound permission set with `insecure_allow_all = false` and
`allow_transport = ["TCP"]` only. -/
def tcpOutbound : OutboundNetworkPermissions :=
  ⟨false, ["TCP".data], [], []⟩

/-- The document generated for `tcpOutbound` with hostname `srv` and no
ingress ports. -/
def tcpDoc : List Char :=
  (createTempSquidConf (some ⟨some tcpOutbound⟩) "srv".data []).getD []

/-- C3, counterexample: for `allow_transport = ["TCP"]` the generated
allowed-methods access list is
`acl allowed_methods method CONNECT GET POST HEAD TCP` — the uppercased entry
`TCP` itself is also emitted after the expansion — and the claimed line with
exactly the four methods and no other token does not occur in the document. -/
theorem c3_counterexample :
    createTempSquidConf (some ⟨some tcpOutbound⟩) "srv".data [] = some tcpDoc ∧
      "acl allowed_methods method CONNECT GET POST HEAD TCP".data ∈
        splitNL tcpDoc ∧
      "acl allowed_methods method CONNECT GET POST HEAD".data ∉
        splitNL tcpDoc := by
  refine ⟨rfl, ?_, ?_⟩ <;> decide

/-- C3 (amended): with `insecure_allow_all = false` and
`allow_transport = ["TCP"]`, the generated document contains the
allowed-methods line `acl allowed_methods method CONNECT GET POST HEAD TCP`
(the `TCP` entry expands to `CONNECT GET POST HEAD` followed by the uppercased
entry itself) and contains an `http_access allow` line gated on the
conjunction of the non-empty lists. -/
theorem c3_tcp_expansion (hs : List (List Char)) (ps : List Int)
    (hstn : List Char) (ports : List (List Char)) (hh : '\n' ∉ hstn)
    (hp : ∀ p ∈ ports, '\n' ∉ p) (hhs : ∀ x ∈ hs, '\n' ∉ x) :
    createTempSquidConf (some ⟨some ⟨false, ["TCP".data], hs, ps⟩⟩) hstn
        ports ≠ none ∧
      "acl allowed_methods method CONNECT GET POST HEAD TCP".data ∈
        squidLines (some ⟨some ⟨false, ["TCP".data], hs, ps⟩⟩) hstn ports ∧
      ("http_access allow ".data ++
          joinSpace (accessRuleConditions ⟨false, ["TCP".data], hs, ps⟩)) ∈
        squidLines (some ⟨some ⟨false, ["TCP".data], hs, ps⟩⟩) hstn ports := by
  set o : OutboundNetworkPermissions := ⟨false, ["TCP".data], hs, ps⟩ with ho
  have hdoc : createTempSquidConf (some ⟨some o⟩) hstn ports =
      some (squidConfHeader hstn ++ writeOutboundACLs o ++
        writeHttpAccessRules o ++ writeIngressProxyConfig ports hstn ++
        "http_access deny all\n".data) := rfl
  refine ⟨by rw [hdoc]; exact Option.some_ne_none _, ?_⟩
  have hmethods : "acl allowed_methods method CONNECT GET POST HEAD TCP".data =
      "acl allowed_methods method".data ++ methodsJoin ["TCP".data] := by decide
  have htail : splitNL ("# Define allowed methods\nacl allowed_methods method".data ++
      (methodsJoin ["TCP".data] ++ ("\n# Define http_access rules\n".data ++
        ("http_access allow ".data ++ (joinSpace (accessRuleConditions o) ++ '\n' ::
          (writeIngressProxyConfig ports hstn ++
            "http_access deny all\n".data)))))) =
      "# Define allowed methods".data ::
        ("acl allowed_methods method".data ++ methodsJoin ["TCP".data]) ::
        "# Define http_access rules".data ::
        ("http_access allow ".data ++ joinSpace (accessRuleConditions o)) ::
        (ingressLines ports hstn ++ ["http_access deny all".data, []]) := by
    rw [methodsRules_lines _ _ _ (by decide) (noNL_accessConds o),
      writeIngressProxyConfig_lines _ _ _ hh hp, denyBlock_lines]
  rw [squidLines, hdoc, Option.elim]
  by_cases hPp : ps.length > 0 <;> by_cases hHh : hs.length > 0
  · have harr : squidConfHeader hstn ++ writeOutboundACLs o ++
        writeHttpAccessRules o ++ writeIngressProxyConfig ports hstn ++
        "http_access deny all\n".data =
        squidConfHeader hstn ++
          ("# Define allowed ports\nacl allowed_ports port".data ++
            (portsJoin ps ++ '\n' ::
          ("# Define allowed destinations\nacl allowed_dsts dstdomain".data ++
            (hostsJoin hs ++ '\n' ::
          ("# Define allowed methods\nacl allowed_methods method".data ++
            (methodsJoin ["TCP".data] ++
              ("\n# Define http_access rules\n".data ++
                ("http_access allow ".data ++
                  (joinSpace (accessRuleConditions o) ++ '\n' ::
                    (writeIngressProxyConfig ports hstn ++
                      "http_access deny all\n".data)))))))))) := by
      simp [writeOutboundACLs, writeHttpAccessRules, ho, hPp, hHh,
        accessRuleConditions]
    rw [harr, squidConfHeader_lines _ _ hh,
      portsBlock_lines _ _ (noNL_portsJoin ps),
      hostsBlock_lines _ _ (noNL_hostsJoin hhs), htail]
    constructor
    · rw [hmethods]
      exact List.mem_append_right _ (by simp)
    · exact List.mem_append_right _ (by simp)
  · have harr : squidConfHeader hstn ++ writeOutboundACLs o ++
        writeHttpAccessRules o ++ writeIngressProxyConfig ports hstn ++
        "http_access deny all\n".data =
        squidConfHeader hstn ++
          ("# Define allowed ports\nacl allowed_ports port".data ++
            (portsJoin ps ++ '\n' ::
          ("# Define allowed methods\nacl allowed_methods method".data ++
            (methodsJoin ["TCP".data] ++
              ("\n# Define http_access rules\n".data ++
                ("http_access allow ".data ++
                  (joinSpace (accessRuleConditions o) ++ '\n' ::
                    (writeIngressProxyConfig ports hstn ++
                      "http_access deny all\n".data)))))))) := by
      simp [writeOutboundACLs, writeHttpAccessRules, ho, hPp, hHh,
        accessRuleConditions]
    rw [harr, squidConfHeader_lines _ _ hh,
      portsBlock_lines _ _ (noNL_portsJoin ps), htail]
    constructor
    · rw [hmethods]
      exact List.mem_append_right _ (by simp)
    · exact List.mem_append_right _ (by simp)
  · have harr : squidConfHeader hstn ++ writeOutboundACLs o ++
        writeHttpAccessRules o ++ writeIngressProxyConfig ports hstn ++
        "http_access deny all\n".data =
        squidConfHeader hstn ++
          ("# Define allowed destinations\nacl allowed_dsts dstdomain".data ++
            (hostsJoin hs ++ '\n' ::
          ("# Define allowed methods\nacl allowed_methods method".data ++
            (methodsJoin ["TCP".data] ++
              ("\n# Define http_access rules\n".data ++
                ("http_access allow ".data ++
                  (joinSpace (accessRuleConditions o) ++ '\n' ::
                    (writeIngressProxyConfig ports hstn ++
                      "http_access deny all\n".data)))))))) := by
      simp [writeOutboundACLs, writeHttpAccessRules, ho, hPp, hHh,
        accessRuleConditions]
    rw [harr, squidConfHeader_lines _ _ hh,
      hostsBlock_lines _ _ (noNL_hostsJoin hhs), htail]
    constructor
    · rw [hmethods]
      exact List.mem_append_right _ (by simp)
    · exact List.mem_append_right _ (by simp)
  · have harr : squidConfHeader hstn ++ writeOutboundACLs o ++
        writeHttpAccessRules o ++ writeIngressProxyConfig ports hstn ++
        "http_access deny all\n".data =
        squidConfHeader hstn ++
          ("# Define allowed methods\nacl allowed_methods method".data ++
            (methodsJoin ["TCP".data] ++
              ("\n# Define http_access rules\n".data ++
                ("http_access allow ".data ++
                  (joinSpace (accessRuleConditions o) ++ '\n' ::
                    (writeIngressProxyConfig ports hstn ++
                      "http_access deny all\n".data)))))) := by
      simp [writeOutboundACLs, writeHttpAccessRules, ho, hPp, hHh,
        accessRuleConditions]
    rw [harr, squidConfHeader_lines _ _ hh, htail]
    constructor
    · rw [hmethods]
      exact List.mem_append_right _ (by simp)
    · exact List.mem_append_right _ (by simp)

/-- C3 witness: the amended theorem at empty host and port lists, hostname
`srv`, no ingress ports. -/
theorem c3_tcp_expansion_witness :
    createTempSquidConf (some ⟨some ⟨false, ["TCP".data], [], []⟩⟩) "srv".data
        [] ≠ none ∧
      "acl allowed_methods method CONNECT GET POST HEAD TCP".data ∈
        squidLines (some ⟨some ⟨false, ["TCP".data], [], []⟩⟩) "srv".data [] ∧
      ("http_access allow ".data ++
          joinSpace (accessRuleConditions ⟨false, ["TCP".data], [], []⟩)) ∈
        squidLines (some ⟨some ⟨false, ["TCP".data], [], []⟩⟩) "srv".data [] :=
  c3_tcp_expansion [] [] "srv".data [] (by decide) (by simp) (by simp)

/-- The `acl allowed_dsts dstdomain H` line for a single allowed host `H`. -/
def dstLine (H : List Char) : List Char :=
  "acl allowed_dsts dstdomain ".data ++ H

theorem count_dst_header (hstn H : List Char) :
    List.count (dstLine H) (squidHeaderLines hstn) = 0 := by
  rw [List.count_eq_zero]
  intro hm
  simp [squidHeaderLines, dstLine] at hm

theorem count_dst_ingress (ports : List (List Char)) (hstn H : List Char) :
    List.count (dstLine H) (ingressLines ports hstn) = 0 := by
  rw [List.count_eq_zero]
  intro hm
  rw [ingressLines] at hm
  rcases List.mem_flatMap.mp hm with ⟨p, _, hmem⟩
  simp [dstLine] at hmem

theorem lastRule_base (B : List (List Char)) (d : List Char) :
    ((B ++ [d, []]).dropLast).getLast? = some d ∧ (B ++ [d, []]).dropLast ≠ [] := by
  have h1 : B ++ [d, []] = (B ++ [d]) ++ [[]] := by simp
  rw [h1, List.dropLast_concat]
  exact ⟨List.getLast?_concat _, by simp⟩

theorem lastRule_cons (x : List Char) {T : List (List Char)} {d : List Char}
    (h : (T.dropLast).getLast? = some d ∧ T.dropLast ≠ []) :
    ((x :: T).dropLast).getLast? = some d ∧ (x :: T).dropLast ≠ [] := by
  have hT : T ≠ [] := by
    intro he
    rw [he] at h
    simp at h
  obtain ⟨y, ys, hys⟩ : ∃ y ys, T.dropLast = y :: ys := by
    rcases hl : T.dropLast with _ | ⟨y, ys⟩
    · exact absurd hl h.2
    · exact ⟨y, ys, rfl⟩
  rw [List.dropLast_cons_of_ne_nil hT, hys]
  refine ⟨?_, by simp⟩
  rw [List.getLast?_cons_cons]
  rw [← hys]
  exact h.1

theorem lastRule_appendA (A : List (List Char)) {T : List (List Char)}
    {d : List Char} (h : (T.dropLast).getLast? = some d ∧ T.dropLast ≠ []) :
    ((A ++ T).dropLast).getLast? = some d ∧ (A ++ T).dropLast ≠ [] := by
  induction A with
  | nil => simpa using h
  | cons x xs ih =>
    rw [List.cons_append]
    exact lastRule_cons x ih

/-- C4: with `insecure_allow_all = false` and `allow_host = [H]`, the generated
egress ACL document contains exactly one `acl allowed_dsts dstdomain H` line,
and its final rule — the last line of the document, before the trailing empty
line produced by the final newline — is `http_access deny all`. -/
theorem c4_single_host (ts : List (List Char)) (ps : List Int)
    (H hstn : List Char) (ports : List (List Char)) (hh : '\n' ∉ hstn)
    (hp : ∀ p ∈ ports, '\n' ∉ p) (hH : '\n' ∉ H) (hts : ∀ m ∈ ts, '\n' ∉ m) :
    createTempSquidConf (some ⟨some ⟨false, ts, [H], ps⟩⟩) hstn ports ≠ none ∧
      List.count (dstLine H)
        (squidLines (some ⟨some ⟨false, ts, [H], ps⟩⟩) hstn ports) = 1 ∧
      ((squidLines (some ⟨some ⟨false, ts, [H], ps⟩⟩) hstn
          ports).dropLast).getLast? = some "http_access deny all".data := by
  set o : OutboundNetworkPermissions := ⟨false, ts, [H], ps⟩ with ho
  have hdoc : createTempSquidConf (some ⟨some o⟩) hstn ports =
      some (squidConfHeader hstn ++ writeOutboundACLs o ++
        writeHttpAccessRules o ++ writeIngressProxyConfig ports hstn ++
        "http_access deny all\n".data) := rfl
  have hHs : ∀ x ∈ [H], '\n' ∉ x := by
    intro x hx
    rcases List.mem_cons.mp hx with h | h
    · exact h ▸ hH
    · simp at h
  have hcl : (accessRuleConditions o).length > 0 := by
    rw [accessRuleConditions]
    simp [ho]
  refine ⟨by rw [hdoc]; exact Option.some_ne_none _, ?_⟩
  rw [squidLines, hdoc, Option.elim]
  by_cases hPp : ps.length > 0 <;> by_cases hTt : ts.length > 0
  · have harr : squidConfHeader hstn ++ writeOutboundACLs o ++
        writeHttpAccessRules o ++ writeIngressProxyConfig ports hstn ++
        "http_access deny all\n".data =
        squidConfHeader hstn ++
          ("# Define allowed ports\nacl allowed_ports port".data ++
            (portsJoin ps ++ '\n' ::
          ("# Define allowed destinations\nacl allowed_dsts dstdomain".data ++
            (hostsJoin [H] ++ '\n' ::
          ("# Define allowed methods\nacl allowed_methods method".data ++
            (methodsJoin ts ++
              ("\n# Define http_access rules\n".data ++
                ("http_access allow ".data ++
                  (joinSpace (accessRuleConditions o) ++ '\n' ::
                    (writeIngressProxyConfig ports hstn ++
                      "http_access deny all\n".data)))))))))) := by
      simp [writeOutboundACLs, writeHttpAccessRules, ho, hPp, hTt, hcl]
    rw [harr, squidConfHeader_lines _ _ hh,
      portsBlock_lines _ _ (noNL_portsJoin ps),
      hostsBlock_lines _ _ (noNL_hostsJoin hHs),
      methodsRules_lines _ _ _ (noNL_methodsJoin hts) (noNL_accessConds o),
      writeIngressProxyConfig_lines _ _ _ hh hp, denyBlock_lines]
    constructor
    · simp only [List.count_append, List.count_cons, List.count_nil,
        count_dst_header, count_dst_ingress]
      simp [dstLine, hostsJoin]
    · exact (lastRule_appendA _ (lastRule_cons _ (lastRule_cons _
        (lastRule_cons _ (lastRule_cons _ (lastRule_cons _ (lastRule_cons _
        (lastRule_cons _ (lastRule_cons _ (lastRule_base _ _)))))))))).1
  · have harr : squidConfHeader hstn ++ writeOutboundACLs o ++
        writeHttpAccessRules o ++ writeIngressProxyConfig ports hstn ++
        "http_access deny all\n".data =
        squidConfHeader hstn ++
          ("# Define allowed ports\nacl allowed_ports port".data ++
            (portsJoin ps ++ '\n' ::
          ("# Define allowed destinations\nacl allowed_dsts dstdomain".data ++
            (hostsJoin [H] ++ '\n' ::
          ("\n# Define http_access rules\n".data ++
            ("http_access allow ".data ++
              (joinSpace (accessRuleConditions o) ++ '\n' ::
                (writeIngressProxyConfig ports hstn ++
                  "http_access deny all\n".data)))))))) := by
      simp [writeOutboundACLs, writeHttpAccessRules, ho, hPp, hTt, hcl]
    rw [harr, squidConfHeader_lines _ _ hh,
      portsBlock_lines _ _ (noNL_portsJoin ps),
      hostsBlock_lines _ _ (noNL_hostsJoin hHs),
      rulesOnly_lines _ _ (noNL_accessConds o),
      writeIngressProxyConfig_lines _ _ _ hh hp, denyBlock_lines]
    constructor
    · simp only [List.count_append, List.count_cons, List.count_nil,
        count_dst_header, count_dst_ingress]
      simp [dstLine, hostsJoin]
    · exact (lastRule_appendA _ (lastRule_cons _ (lastRule_cons _
        (lastRule_cons _ (lastRule_cons _ (lastRule_cons _ (lastRule_cons _
        (lastRule_cons _ (lastRule_base _ _))))))))).1
  · have harr : squidConfHeader hstn ++ writeOutboundACLs o ++
        writeHttpAccessRules o ++ writeIngressProxyConfig ports hstn ++
        "http_access deny all\n".data =
        squidConfHeader hstn ++
          ("# Define allowed destinations\nacl allowed_dsts dstdomain".data ++
            (hostsJoin [H] ++ '\n' ::
          ("# Define allowed methods\nacl allowed_methods method".data ++
            (methodsJoin ts ++
              ("\n# Define http_access rules\n".data ++
                ("http_access allow ".data ++
                  (joinSpace (accessRuleConditions o) ++ '\n' ::
                    (writeIngressProxyConfig ports hstn ++
                      "http_access deny all\n".data)))))))) := by
      simp [writeOutboundACLs, writeHttpAccessRules, ho, hPp, hTt, hcl]
    rw [harr, squidConfHeader_lines _ _ hh,
      hostsBlock_lines _ _ (noNL_hostsJoin hHs),
      methodsRules_lines _ _ _ (noNL_methodsJoin hts) (noNL_accessConds o),
      writeIngressProxyConfig_lines _ _ _ hh hp, denyBlock_lines]
    constructor
    · simp only [List.count_append, List.count_cons, List.count_nil,
        count_dst_header, count_dst_ingress]
      simp [dstLine, hostsJoin]
    · exact (lastRule_appendA _ (lastRule_cons _ (lastRule_cons _
        (lastRule_cons _ (lastRule_cons _ (lastRule_cons _ (lastRule_cons _
        (lastRule_base _ _)))))))).1
  · have harr : squidConfHeader hstn ++ writeOutboundACLs o ++
        writeHttpAccessRules o ++ writeIngressProxyConfig ports hstn ++
        "http_access deny all\n".data =
        squidConfHeader hstn ++
          ("# Define allowed destinations\nacl allowed_dsts dstdomain".data ++
            (hostsJoin [H] ++ '\n' ::
          ("\n# Define http_access rules\n".data ++
            ("http_access allow ".data ++
              (joinSpace (accessRuleConditions o) ++ '\n' ::
                (writeIngressProxyConfig ports hstn ++
                  "http_access deny all\n".data)))))) := by
      simp [writeOutboundACLs, writeHttpAccessRules, ho, hPp, hTt, hcl]
    rw [harr, squidConfHeader_lines _ _ hh,
      hostsBlock_lines _ _ (noNL_hostsJoin hHs),
      rulesOnly_lines _ _ (noNL_accessConds o),
      writeIngressProxyConfig_lines _ _ _ hh hp, denyBlock_lines]
    constructor
    · simp only [List.count_append, List.count_cons, List.count_nil,
        count_dst_header, count_dst_ingress]
      simp [dstLine, hostsJoin]
    · exact (lastRule_appendA _ (lastRule_cons _ (lastRule_cons _
        (lastRule_cons _ (lastRule_cons _ (lastRule_cons _
        (lastRule_base _ _))))))).1

/-- C4 witness: the theorem at `allow_host = ["api.example.com"]`, no other
allow-lists, hostname `srv`, no ingress ports. -/
theorem c4_single_host_witness :
    createTempSquidConf (some ⟨some ⟨false, [], ["api.example.com".data], []⟩⟩)
        "srv".data [] ≠ none ∧
      List.count (dstLine "api.example.com".data)
        (squidLines (some ⟨some ⟨false, [], ["api.example.com".data], []⟩⟩)
          "srv".data []) = 1 ∧
      ((squidLines (some ⟨some ⟨false, [], ["api.example.com".data], []⟩⟩)
          "srv".data []).dropLast).getLast? =
        some "http_access deny all".data :=
  c4_single_host [] [] "api.example.com".data "srv".data [] (by decide)
    (by simp) (by decide) (by simp)

/-! ### C7, C9, C10: the HTTP/SSE proxy
(`HTTPSSEProxy` in pkg/transport/proxy/httpsse/http_proxy.go).  Channels are
modelled as bounded queues (the source creates every channel with capacity
100); a non-blocking send on a full channel fails. -/

/-- Modelled from the spec: `ssecommon.SSEMessage` (package `ssecommon` is not
among the given sources).  An SSE message is an event type plus a data
payload. -/
structure SSEMessage where
  eventType : List Char
  payload : List Char
deriving DecidableEq

/-- Modelled from the spec: `SSEMessage.ToSSEString` frames a message as
`event: <type>\ndata: <data>\n\n` (spec section 6). -/
def toSSEString (m : SSEMessage) : List Char :=
  "event: ".data ++ m.eventType ++ "\ndata: ".data ++ m.payload ++ "\n\n".data

/-- Source `ssecommon.SSEClient`: the per-client outbound queue (channel of
capacity 100). -/
structure SSEClient where
  messageCh : List (List Char)
deriving DecidableEq

/-- Source `HTTPSSEProxy`: connected SSE clients, the pending-messages list and
the inbound message channel (capacity 100). -/
structure HTTPSSEProxy where
  sseClients : List (List Char × SSEClient)
  pendingMessages : List SSEMessage
  messageCh : List (List Char)
deriving DecidableEq

/-- Go map lookup on an association list. -/
def mapLookup {ν : Type} (m : List (List Char × ν)) (k : List Char) : Option ν :=
  match m.find? (fun e => e.1 = k) with
  | some e => some e.2
  | none => none

/-- Replace the value stored under an existing key. -/
def mapSet {ν : Type} (m : List (List Char × ν)) (k : List Char) (v : ν) :
    List (List Char × ν) :=
  m.map fun e => if e.1 = k then (k, v) else e

/-- Source `sendSSEEvent`: deliver an SSE-framed string to every connected
client; a client whose channel is full is evicted and its channel closed. -/
def sendSSEEvent (p : HTTPSSEProxy) (msg : SSEMessage) : HTTPSSEProxy :=
  let sseString := toSSEString msg
  { p with
    sseClients := p.sseClients.filterMap fun e =>
      if e.2.messageCh.length < 100 then
        some (e.1, ⟨e.2.messageCh ++ [sseString]⟩)
      else none }

/-- Source `ForwardResponseToClients`: with at least one client connected the
message is fanned out; with zero clients it is appended to the pending list.
The input is the already-encoded JSON of the message. -/
def forwardResponseToClients (p : HTTPSSEProxy) (encoded : List Char) :
    HTTPSSEProxy :=
  let sseMsg : SSEMessage := ⟨"message".data, encoded⟩
  if p.sseClients.length > 0 then sendSSEEvent p sseMsg
  else { p with pendingMessages := p.pendingMessages ++ [sseMsg] }

/-- Source `processPendingMessages`, inner loop: send pending messages into the
client's channel in order; on a full channel stop early (returning `false`,
meaning the final clearing assignment is not reached). -/
def drainPending (queue : List (List Char)) :
    List SSEMessage → List (List Char) × Bool
  | [] => (queue, true)
  | m :: rest =>
    if queue.length < 100 then drainPending (queue ++ [toSSEString m]) rest
    else (queue, false)

/-- Source `processPendingMessages`: nothing to do when the pending list is
empty; otherwise drain into the client's channel and clear the list only when
the loop ran to completion (an early `return` on a full channel skips
`p.pendingMessages = nil`). -/
def processPendingMessages (p : HTTPSSEProxy) (clientID : List Char) :
    HTTPSSEProxy :=
  if p.pendingMessages.length = 0 then p
  else
    match mapLookup p.sseClients clientID with
    | none => p
    | some client =>
      let res := drainPending client.messageCh p.pendingMessages
      { p with
        sseClients := mapSet p.sseClients clientID ⟨res.1⟩,
        pendingMessages := if res.2 then [] else p.pendingMessages }

/-- Source `handleSSEConnection`, registration phase: register a fresh client
with an empty channel of capacity 100, then process pending messages for it. -/
def handleSSEConnection (p : HTTPSSEProxy) (clientID : List Char) :
    HTTPSSEProxy :=
  let p1 := { p with sseClients := p.sseClients ++ [(clientID, ⟨[]⟩)] }
  processPendingMessages p1 clientID

/-- Source `SendMessageToDestination`: non-blocking send into the bounded
inbound channel; fails when full. -/
def sendMessageToDestination (p : HTTPSSEProxy) (msg : List Char) :
    HTTPSSEProxy × Bool :=
  if p.messageCh.length < 100 then ({ p with messageCh := p.messageCh ++ [msg] }, true)
  else (p, false)

/-- An HTTP request as seen by `handlePostRequest`: method, `session_id` query
parameter (empty when absent) and body. -/
structure HTTPRequest where
  method : List Char
  sessionID : List Char
  body : List Char

/-- Source `handlePostRequest`.  The JSON-RPC decoder is a parameter: the
claims about this handler hold for every decoder.  Returns the new proxy
state, the HTTP status and the response message. -/
def handlePostRequest (decodeMsg : List Char → Option (List Char))
    (p : HTTPSSEProxy) (r : HTTPRequest) : HTTPSSEProxy × Nat × List Char :=
  if r.method ≠ "POST".data then (p, 405, "Method not allowed".data)
  else if r.sessionID = [] then (p, 400, "session_id is required".data)
  else if (mapLookup p.sseClients r.sessionID).isNone then
    (p, 404, "Could not find session".data)
  else
    match decodeMsg r.body with
    | none => (p, 400, "Error parsing JSON-RPC message".data)
    | some msg =>
      let res := sendMessageToDestination p msg
      if res.2 then (res.1, 202, "Accepted".data)
      else (res.1, 500, "Failed to send message to destination".data)

/-- C9: a POST whose session id names no existing SSE client gets HTTP 404 and
leaves the proxy state — in particular the inbound message channel — \
untouched, for every JSON-RPC decoder and every body. -/
theorem c9_unknown_session (decodeMsg : List Char → Option (List Char))
    (p : HTTPSSEProxy) (r : HTTPRequest) (hm : r.method = "POST".data)
    (hs : r.sessionID ≠ []) (hunk : mapLookup p.sseClients r.sessionID = none) :
    handlePostRequest decodeMsg p r = (p, 404, "Could not find session".data) ∧
      (handlePostRequest decodeMsg p r).1.messageCh = p.messageCh := by
  have h : handlePostRequest decodeMsg p r =
      (p, 404, "Could not find session".data) := by
    simp [handlePostRequest, hm, hs, hunk]
  exact ⟨h, by rw [h]⟩

/-- C9 witness: a registered client `a`, a POST for unknown session `b`. -/
theorem c9_unknown_session_witness :
    handlePostRequest (fun _ => none) ⟨[(['a'], ⟨[]⟩)], [], []⟩
        ⟨"POST".data, ['b'], ['x']⟩ =
      (⟨[(['a'], ⟨[]⟩)], [], []⟩, 404, "Could not find session".data) ∧
      (handlePostRequest (fun _ => none) ⟨[(['a'], ⟨[]⟩)], [], []⟩
        ⟨"POST".data, ['b'], ['x']⟩).1.messageCh = [] :=
  c9_unknown_session (fun _ => none) ⟨[(['a'], ⟨[]⟩)], [], []⟩
    ⟨"POST".data, ['b'], ['x']⟩ (by decide) (by decide) (by decide)

/-- C10: a POST with an empty `session_id` parameter gets HTTP 400 with message
`session_id is required`, regardless of the registered clients (even a client
registered under the empty id), the body, and the decoder: the presence check
precedes the session lookup, the body read and the JSON-RPC decode. -/
theorem c10_session_id_required (decodeMsg : List Char → Option (List Char))
    (p : HTTPSSEProxy) (r : HTTPRequest) (hm : r.method = "POST".data)
    (hs : r.sessionID = []) :
    handlePostRequest decodeMsg p r = (p, 400, "session_id is required".data) := by
  simp [handlePostRequest, hm, hs]

/-- C10 witness: the empty session id yields 400 even though a client is
registered under the empty id and the decoder would succeed. -/
theorem c10_session_id_required_witness :
    handlePostRequest (fun b => some b) ⟨[([], ⟨[]⟩)], [], []⟩
        ⟨"POST".data, [], ['x']⟩ =
      (⟨[([], ⟨[]⟩)], [], []⟩, 400, "session_id is required".data) :=
  c10_session_id_required (fun b => some b) ⟨[([], ⟨[]⟩)], [], []⟩
    ⟨"POST".data, [], ['x']⟩ (by decide) (by decide)

theorem forward_no_clients (st : HTTPSSEProxy) (h : st.sseClients = [])
    (encoded : List Char) :
    forwardResponseToClients st encoded =
      { st with pendingMessages :=
          st.pendingMessages ++ [⟨"message".data, encoded⟩] } := by
  simp [forwardResponseToClients, h]

theorem foldl_forward_no_clients (msgs : List (List Char)) :
    ∀ st : HTTPSSEProxy, st.sseClients = [] →
      msgs.foldl forwardResponseToClients st =
        { st with pendingMessages :=
            st.pendingMessages ++ msgs.map (fun d => ⟨"message".data, d⟩) } := by
  induction msgs with
  | nil =>
    intro st _
    simp
  | cons d ds ih =>
    intro st h
    rw [List.foldl_cons, forward_no_clients st h d, ih _ (by simp [h])]
    simp

theorem drainPending_complete :
    ∀ (P : List SSEMessage) (q : List (List Char)), q.length + P.length ≤ 100 →
      drainPending q P = (q ++ P.map toSSEString, true) := by
  intro P
  induction P with
  | nil =>
    intro q _
    simp [drainPending]
  | cons m ms ih =>
    intro q hq
    simp only [List.length_cons] at hq
    rw [drainPending, if_pos (by omega), ih (q ++ [toSSEString m]) (by simp; omega)]
    simp

/-- C7, counterexample: with 101 messages pending (one more than the fresh
client channel capacity of 100), the first connecting client receives only the
first 100, the pending list is NOT cleared (the loop returns early on the full
channel, skipping the clearing assignment), and a second connecting client is
re-delivered the same messages. -/
theorem c7_counterexample :
    (handleSSEConnection
        ((List.replicate 101 ['m']).foldl forwardResponseToClients ⟨[], [], []⟩)
        ['a']).pendingMessages ≠ [] ∧
      (mapLookup (handleSSEConnection (handleSSEConnection
          ((List.replicate 101 ['m']).foldl forwardResponseToClients ⟨[], [], []⟩)
          ['a']) ['b']).sseClients ['b']).getD ⟨[]⟩ ≠ ⟨[]⟩ := by
  decide

/-- C7 (amended): messages emitted with zero clients connected are appended to
the pending list in FIFO order; provided they fit into the connecting client's
fresh channel (at most 100), they are all delivered to that client in FIFO
order, the pending list is cleared, and a subsequently connecting client
receives none of them. -/
theorem c7_pending_buffer (st : HTTPSSEProxy) (msgs : List (List Char))
    (cid cid2 : List Char) (h0 : st.sseClients = [])
    (hp0 : st.pendingMessages = []) (hlen : msgs.length ≤ 100)
    (hne : cid ≠ cid2) :
    (msgs.foldl forwardResponseToClients st).pendingMessages =
        msgs.map (fun d => ⟨"message".data, d⟩) ∧
      mapLookup (handleSSEConnection (msgs.foldl forwardResponseToClients st)
          cid).sseClients cid =
        some ⟨msgs.map (fun d => toSSEString ⟨"message".data, d⟩)⟩ ∧
      (handleSSEConnection (msgs.foldl forwardResponseToClients st)
          cid).pendingMessages = [] ∧
      mapLookup (handleSSEConnection (handleSSEConnection
          (msgs.foldl forwardResponseToClients st) cid) cid2).sseClients cid2 =
        some ⟨[]⟩ := by
  have hst1 : msgs.foldl forwardResponseToClients st =
      { st with pendingMessages := msgs.map (fun d => ⟨"message".data, d⟩) } := by
    rw [foldl_forward_no_clients msgs st h0, hp0]
    simp
  refine ⟨by rw [hst1], ?_, ?_, ?_⟩ <;> rw [hst1]
  all_goals by_cases hms : msgs = []
  · subst hms
    simp [handleSSEConnection, processPendingMessages, h0, mapLookup]
  · have hdr := drainPending_complete (msgs.map (fun d => ⟨"message".data, d⟩)) []
      (by simp; omega)
    simp [handleSSEConnection, processPendingMessages, h0, hms, mapLookup,
      mapSet, hdr, List.map_map]
  · subst hms
    simp [handleSSEConnection, processPendingMessages, h0, mapLookup]
  · have hdr := drainPending_complete (msgs.map (fun d => ⟨"message".data, d⟩)) []
      (by simp; omega)
    simp [handleSSEConnection, processPendingMessages, h0, hms, mapLookup,
      mapSet, hdr]
  · subst hms
    simp [handleSSEConnection, processPendingMessages, h0, mapLookup, hne,
      Ne.symm hne]
  · have hdr := drainPending_complete (msgs.map (fun d => ⟨"message".data, d⟩)) []
      (by simp; omega)
    simp [handleSSEConnection, processPendingMessages, h0, hms, mapLookup,
      mapSet, hdr, hne, Ne.symm hne]

/-- C7 witness: two pending messages, then clients `a` and `b` connect. -/
theorem c7_pending_buffer_witness :
    ((['x'] :: [['y']]).foldl forwardResponseToClients
        (⟨[], [], []⟩ : HTTPSSEProxy)).pendingMessages =
        (['x'] :: [['y']]).map (fun d => ⟨"message".data, d⟩) ∧
      mapLookup (handleSSEConnection ((['x'] :: [['y']]).foldl
          forwardResponseToClients ⟨[], [], []⟩) ['a']).sseClients ['a'] =
        some ⟨(['x'] :: [['y']]).map (fun d => toSSEString ⟨"message".data, d⟩)⟩ ∧
      (handleSSEConnection ((['x'] :: [['y']]).foldl forwardResponseToClients
          ⟨[], [], []⟩) ['a']).pendingMessages = [] ∧
      mapLookup (handleSSEConnection (handleSSEConnection
          ((['x'] :: [['y']]).foldl forwardResponseToClients ⟨[], [], []⟩)
          ['a']) ['b']).sseClients ['b'] = some ⟨[]⟩ :=
  c7_pending_buffer ⟨[], [], []⟩ (['x'] :: [['y']]) ['a'] ['b'] rfl rfl
    (by decide) (by decide)

/-! ### C8: StdioTransport.Stop (pkg/transport/stdio.go, current version) -/

/-- Source `StdioTransport`, the state touched by `Stop`: whether the shutdown
channel has been closed, and the presence of monitor, HTTP proxy, stdin,
runtime and container, plus whether the container is running. -/
structure StdioTransport where
  shutdownClosed : Bool
  monitor : Bool
  httpProxy : Bool
  stdin : Bool
  runtimePresent : Bool
  containerID : List Char
  containerRunning : Bool
deriving DecidableEq

/-- The teardown side effects of `StdioTransport.Stop`. -/
inductive StopEvent where
  | monitorStop
  | proxyStop
  | stdinClose
  | containerStop
deriving DecidableEq

/-- Source `StdioTransport.Stop`: stop the monitor if present and nil it. -/
def stopMonitorStep (t : StdioTransport) : StdioTransport × List StopEvent :=
  if t.monitor then ({ t with monitor := false }, [StopEvent.monitorStop])
  else (t, [])

/-- Source `StdioTransport.Stop`: stop the HTTP proxy if present (failure only
logged). -/
def proxyStep (t : StdioTransport) : List StopEvent :=
  if t.httpProxy then [StopEvent.proxyStop] else []

/-- Source `StdioTransport.Stop`: close stdin if open and nil it. -/
def stdinStep (t : StdioTransport) : StdioTransport × List StopEvent :=
  if t.stdin then ({ t with stdin := false }, [StopEvent.stdinClose])
  else (t, [])

/-- Source `StdioTransport.Stop`: with a runtime and container id set, check
whether the container still runs and stop it only then. -/
def containerStep (t : StdioTransport) : StdioTransport × List StopEvent :=
  if t.runtimePresent ∧ t.containerID ≠ [] then
    if t.containerRunning then
      ({ t with containerRunning := false }, [StopEvent.containerStop])
    else (t, [])
  else (t, [])

/-- Source `StdioTransport.Stop`, teardown body (after closing the shutdown
channel): monitor stop, HTTP proxy stop, stdin close, container stop, in this
order.  Failures are logged, never returned. -/
def stopTeardown (t : StdioTransport) : StdioTransport × List StopEvent :=
  let r1 := stopMonitorStep t
  let e2 := proxyStep r1.1
  let r3 := stdinStep r1.1
  let r4 := containerStep r3.1
  (r4.1, r1.2 ++ e2 ++ r3.2 ++ r4.2)

/-- Source `StdioTransport.Stop`: when the shutdown channel is already closed
(checked both before and, against races, after taking the mutex) the call
returns immediately with a nil error and no side effects; otherwise the channel
is closed and the teardown runs.  The Go function always returns nil, so only
the state and the emitted teardown events are modelled. -/
def StdioTransport.stop (t : StdioTransport) : StdioTransport × List StopEvent :=
  if t.shutdownClosed then (t, [])
  else stopTeardown { t with shutdownClosed := true }

theorem stopMonitorStep_sentinel (u : StdioTransport) :
    (stopMonitorStep u).1.shutdownClosed = u.shutdownClosed := by
  unfold stopMonitorStep
  split <;> rfl

theorem stdinStep_sentinel (u : StdioTransport) :
    (stdinStep u).1.shutdownClosed = u.shutdownClosed := by
  unfold stdinStep
  split <;> rfl

theorem containerStep_sentinel (u : StdioTransport) :
    (containerStep u).1.shutdownClosed = u.shutdownClosed := by
  unfold containerStep
  split
  · split <;> rfl
  · rfl

theorem stopTeardown_sentinel (u : StdioTransport) :
    (stopTeardown u).1.shutdownClosed = u.shutdownClosed := by
  show (containerStep (stdinStep (stopMonitorStep u).1).1).1.shutdownClosed =
    u.shutdownClosed
  rw [containerStep_sentinel, stdinStep_sentinel, stopMonitorStep_sentinel]

/-- C8: after any call to `Stop` the shutdown sentinel is set, and a second
call to `Stop` observes it and returns immediately — no error is possible, the
state is unchanged, and no teardown side-effect (monitor stop, proxy stop,
stdin close, container stop) is emitted. -/
theorem c8_stop_idempotent (t : StdioTransport) :
    ((t.stop).1).shutdownClosed = true ∧ ((t.stop).1).stop = ((t.stop).1, []) := by
  have hsent : ((t.stop).1).shutdownClosed = true := by
    rw [StdioTransport.stop]
    split
    · next h => exact h
    · rw [stopTeardown_sentinel]
  exact ⟨hsent, by rw [StdioTransport.stop, if_pos hsent]⟩

/-! ### C6: network attachment of the main container in `DeployWorkload`
(part_009) -/

/-- Source `DeployWorkload`: the networks the main container's
`endpointsConfig` names.  It starts with the per-workload internal network
`toolhive-<name>-internal`; `toolhive-external` is added only when the
workload is not an MCP workload, i.e. exactly when `name == "inspector"`. -/
def deployWorkloadEndpoints (name : List Char) : List (List Char) :=
  let isMcpWorkload := name ≠ "inspector".data
  let networkName := "toolhive-".data ++ name ++ "-internal".data
  if isMcpWorkload then [networkName]
  else [networkName, "toolhive-external".data]

/-- C6, counterexample: the workload named `inspector` is deployed by
`DeployWorkload` with its main container attached to the shared external
network `toolhive-external`. -/
theorem c6_counterexample :
    "toolhive-external".data ∈ deployWorkloadEndpoints "inspector".data := by
  decide

/-- C6 (amended): for every workload whose name is not `inspector` (the
non-MCP special case), the main container is attached to
`toolhive-<name>-internal` and not to `toolhive-external`. -/
theorem c6_mcp_networks (name : List Char) (hname : name ≠ "inspector".data) :
    ("toolhive-".data ++ name ++ "-internal".data) ∈
        deployWorkloadEndpoints name ∧
      "toolhive-external".data ∉ deployWorkloadEndpoints name := by
  have hval : deployWorkloadEndpoints name =
      ["toolhive-".data ++ name ++ "-internal".data] := by
    simp [deployWorkloadEndpoints, hname]
  rw [hval]
  refine ⟨List.mem_singleton.mpr rfl, ?_⟩
  intro hm
  have heq := List.mem_singleton.mp hm
  have hlen := congrArg List.length heq
  simp at hlen

/-- C6 witness: the amended theorem at workload name `mysrv`. -/
theorem c6_mcp_networks_witness :
    ("toolhive-".data ++ "mysrv".data ++ "-internal".data) ∈
        deployWorkloadEndpoints "mysrv".data ∧
      "toolhive-external".data ∉ deployWorkloadEndpoints "mysrv".data :=
  c6_mcp_networks "mysrv".data (by decide)

/-! ### C5: container reconciliation (`createContainer`,
`handleExistingContainer`, `compareContainerConfig` and helpers in part_009) -/

/-- Source `runtime.PortBinding`. -/
structure PortBinding where
  hostIP : List Char
  hostPort : List Char
deriving DecidableEq

/-- Source `runtime.Mount` / Docker bind mount: source, target, read-only. -/
structure Mount where
  source : List Char
  target : List Char
  readOnly : Bool
deriving DecidableEq

/-- Docker `container.Config`, the fields the reconciler compares. -/
structure ContainerConfig where
  image : List Char
  cmd : List (List Char)
  env : List (List Char)
  labels : List (List Char × List Char)
  attachStdin : Bool
  attachStdout : Bool
  attachStderr : Bool
  openStdin : Bool
  exposedPorts : List (List Char)
deriving DecidableEq

/-- Docker `container.HostConfig`, the fields the reconciler compares. -/
structure HostConfig where
  networkMode : List Char
  capAdd : List (List Char)
  capDrop : List (List Char)
  securityOpt : List (List Char)
  restartPolicyName : List Char
  mounts : List Mount
  portBindings : List (List Char × List PortBinding)
deriving DecidableEq

/-- Docker `container.InspectResponse`, the fields used by the reconciler. -/
structure InspectResponse where
  name : List Char
  config : ContainerConfig
  hostConfig : HostConfig
  stateRunning : Bool
deriving DecidableEq

/-- Go map insert (overwrite an existing key, else append). -/
def mapInsert {ν : Type} (m : List (List Char × ν)) (k : List Char) (v : ν) :
    List (List Char × ν) :=
  if (m.find? (fun e => e.1 = k)).isSome then
    m.map fun e => if e.1 = k then (k, v) else e
  else m ++ [(k, v)]

/-- Go `strings.SplitN(e, "=", 2)` as used by `envSliceToMap`: the part before
the first `=`, and the part after it when a `=` occurs at all. -/
def splitEnvEntry (e : List Char) : List Char × Option (List Char) :=
  (e.takeWhile (· ≠ '='),
   if '=' ∈ e then some ((e.dropWhile (· ≠ '=')).tail) else none)

/-- Source `envSliceToMap`: entries without `=` are skipped (SplitN yields one
part); later entries overwrite earlier ones. -/
def envSliceToMap (env : List (List Char)) : List (List Char × List Char) :=
  env.foldl
    (fun m e =>
      match splitEnvEntry e with
      | (k, some v) => mapInsert m k v
      | (_, none) => m)
    []

/-- Source `compareEnvVars`: every desired env var must occur in the existing
env with an equal value (a one-directional containment over the two maps). -/
def compareEnvVars (existingEnv desiredEnv : List (List Char)) : Bool :=
  (envSliceToMap desiredEnv).all fun kv =>
    mapLookup (envSliceToMap existingEnv) kv.1 = some kv.2

/-- Source `compareLabels`: desired labels must be a subset of the existing
labels. -/
def compareLabels (existingLabels desiredLabels : List (List Char × List Char)) :
    Bool :=
  desiredLabels.all fun kv => mapLookup existingLabels kv.1 = some kv.2

/-- Source `compareStringSlices`: equal length and pointwise equality. -/
def compareStringSlices (existing desired : List (List Char)) : Bool :=
  existing.length = desired.length &&
    (existing.zip desired).all fun ab => ab.1 = ab.2

/-- Source `compareBasicConfig`: image, command (length plus pointwise), env
vars, labels and the four stdio attach flags. -/
def compareBasicConfig (existing : InspectResponse) (desired : ContainerConfig) :
    Bool :=
  (existing.config.image = desired.image : Bool) &&
    compareStringSlices existing.config.cmd desired.cmd &&
    compareEnvVars existing.config.env desired.env &&
    compareLabels existing.config.labels desired.labels &&
    (existing.config.attachStdin = desired.attachStdin : Bool) &&
    (existing.config.attachStdout = desired.attachStdout : Bool) &&
    (existing.config.attachStderr = desired.attachStderr : Bool) &&
    (existing.config.openStdin = desired.openStdin : Bool)

/-- Source `compareHostConfig`: network mode, capabilities, security options
and restart policy. -/
def compareHostConfig (existing : InspectResponse) (desired : HostConfig) :
    Bool :=
  (existing.hostConfig.networkMode = desired.networkMode : Bool) &&
    compareStringSlices existing.hostConfig.capAdd desired.capAdd &&
    compareStringSlices existing.hostConfig.capDrop desired.capDrop &&
    compareStringSlices existing.hostConfig.securityOpt desired.securityOpt &&
    (existing.hostConfig.restartPolicyName = desired.restartPolicyName : Bool)

/-- Source `compareMounts`: equal count, and every desired mount must occur
(keyed by target path) with equal source and read-only flag. -/
def compareMounts (existing : InspectResponse) (desired : HostConfig) : Bool :=
  (existing.hostConfig.mounts.length = desired.mounts.length : Bool) &&
    (desired.mounts.all fun dm =>
      match mapLookup
          (existing.hostConfig.mounts.foldl
            (fun m mnt => mapInsert m mnt.target mnt) []) dm.target with
      | some em => (em.source = dm.source : Bool) && (em.readOnly = dm.readOnly : Bool)
      | none => false)

/-- Source `comparePortConfig`: exposed-port sets by count and membership, and
port bindings by key with equal host IPs and ports in order. -/
def comparePortConfig (existing : InspectResponse) (desired : ContainerConfig)
    (desiredHost : HostConfig) : Bool :=
  (existing.config.exposedPorts.length = desired.exposedPorts.length : Bool) &&
    (desired.exposedPorts.all fun port =>
      (port ∈ existing.config.exposedPorts : Bool)) &&
    (existing.hostConfig.portBindings.length =
      desiredHost.portBindings.length : Bool) &&
    (desiredHost.portBindings.all fun pb =>
      match mapLookup existing.hostConfig.portBindings pb.1 with
      | some eb =>
        (eb.length = pb.2.length : Bool) &&
          ((eb.zip pb.2).all fun ab =>
            (ab.1.hostIP = ab.2.hostIP : Bool) &&
              (ab.1.hostPort = ab.2.hostPort : Bool))
      | none => false)

/-- Source `compareContainerConfig`: the conjunction of the four comparisons. -/
def compareContainerConfig (existing : InspectResponse)
    (desired : ContainerConfig) (desiredHost : HostConfig) : Bool :=
  compareBasicConfig existing desired &&
    compareHostConfig existing desiredHost &&
    compareMounts existing desiredHost &&
    comparePortConfig existing desired desiredHost

/-- A container known to the engine: id, API names (with leading slash) and
inspectable state. -/
structure EngineContainer where
  id : List Char
  names : List (List Char)
  info : InspectResponse
deriving DecidableEq

/-- The container engine as seen through the Docker API. -/
structure Engine where
  containers : List EngineContainer
deriving DecidableEq

/-- Engine API calls that change container state. -/
inductive EngineEvent where
  | create (name : List Char)
  | start (id : List Char)
  | stop (id : List Char)
  | remove (id : List Char)
deriving DecidableEq

/-- Source `findExistingContainer`: list containers (all states) and find an
exact name match, accepting a leading slash. -/
def findExistingContainer (e : Engine) (name : List Char) :
    Option (List Char) :=
  e.containers.findSome? fun cont =>
    if cont.names.any (fun n => n = '/' :: name ∨ n = name) then some cont.id
    else none

/-- Docker `ContainerInspect` by id. -/
def inspectContainer (e : Engine) (id : List Char) : Option InspectResponse :=
  (e.containers.find? (fun c => c.id = id)).map (·.info)

/-- Mark a container as running or stopped. -/
def setRunning (e : Engine) (id : List Char) (r : Bool) : Engine :=
  ⟨e.containers.map fun c =>
    if c.id = id then { c with info := { c.info with stateRunning := r } }
    else c⟩

/-- Remove a container from the engine. -/
def removeFromEngine (e : Engine) (id : List Char) : Engine :=
  ⟨e.containers.filter fun c => ¬ c.id = id⟩

/-- Go `strings.TrimPrefix(name, "/")`. -/
def trimSlash (n : List Char) : List Char :=
  match n with
  | '/' :: rest => rest
  | other => other

/-- Source `StopWorkload`: success if the workload is absent or not running;
otherwise stop the main container, then best-effort stop the `<name>-egress`
and `<name>-dns` containers (failures only logged). -/
def stopWorkload (e : Engine) (id : List Char) : Engine × List EngineEvent :=
  match inspectContainer e id with
  | none => (e, [])
  | some info =>
    if info.stateRunning = false then (e, [])
    else
      let e1 := setRunning e id false
      let containerName := trimSlash info.name
      let r2 :=
        match findExistingContainer e1 (containerName ++ "-egress".data) with
        | some egid => (setRunning e1 egid false, [EngineEvent.stop egid])
        | none => (e1, [])
      let r3 :=
        match findExistingContainer r2.1 (containerName ++ "-dns".data) with
        | some dnid => (setRunning r2.1 dnid false, [EngineEvent.stop dnid])
        | none => (r2.1, [])
      (r3.1, EngineEvent.stop id :: (r2.2 ++ r3.2))

/-- Source `RemoveWorkload`: force-remove the main container (not-found is
success), then best-effort remove the `<name>-egress` and `<name>-dns`
containers.  (The trailing network cleanup touches no container and is not
modelled.) -/
def removeWorkload (e : Engine) (id : List Char) : Engine × List EngineEvent :=
  let containerName :=
    match inspectContainer e id with
    | some info => trimSlash info.name
    | none => []
  let e1 := removeFromEngine e id
  let r2 :=
    match findExistingContainer e1 (containerName ++ "-egress".data) with
    | some egid => (removeFromEngine e1 egid, [EngineEvent.remove egid])
    | none => (e1, [])
  let r3 :=
    match findExistingContainer r2.1 (containerName ++ "-dns".data) with
    | some dnid => (removeFromEngine r2.1 dnid, [EngineEvent.remove dnid])
    | none => (r2.1, [])
  (r3.1, EngineEvent.remove id :: (r2.2 ++ r3.2))

/-- Docker `ContainerCreate` followed by `ContainerStart`: register a fresh
container with the desired configuration, running. -/
def addContainer (e : Engine) (freshId containerName : List Char)
    (config : ContainerConfig) (hostConfig : HostConfig) : Engine :=
  ⟨e.containers ++
    [⟨freshId, ['/' :: containerName],
      ⟨'/' :: containerName, config, hostConfig, true⟩⟩]⟩

/-- Source `createContainer` with `handleExistingContainer` inlined: reconcile
against an existing container of the same name.  When the configurations match
the existing container is reused (started first when it is not running);
otherwise it is stopped, removed and a new container is created and started.
An inspect failure aborts (`none`).  `freshId` stands for the id the engine
assigns to a newly created container. -/
def createContainer (e : Engine) (containerName : List Char)
    (config : ContainerConfig) (hostConfig : HostConfig) (freshId : List Char) :
    Option (List Char × Engine × List EngineEvent) :=
  match findExistingContainer e containerName with
  | some existingId =>
    match inspectContainer e existingId with
    | none => none
    | some info =>
      if compareContainerConfig info config hostConfig then
        if info.stateRunning then some (existingId, e, [])
        else
          some (existingId, setRunning e existingId true,
            [EngineEvent.start existingId])
      else
        let r1 := stopWorkload e existingId
        let r2 := removeWorkload r1.1 existingId
        some (freshId, addContainer r2.1 freshId containerName config hostConfig,
          r1.2 ++ r2.2 ++
            [EngineEvent.create containerName, EngineEvent.start freshId])
  | none =>
    some (freshId, addContainer e freshId containerName config hostConfig,
      [EngineEvent.create containerName, EngineEvent.start freshId])

/-- C5: when a container with the requested name exists and its configuration
matches the desired configuration on every compared dimension
(`compareContainerConfig`), `createContainer` returns the existing container's
id, and the only engine call that may occur is starting that same container
when it is not running — no stop, no remove and no create happens. -/
theorem c5_idempotent_deploy (e : Engine) (containerName freshId : List Char)
    (config : ContainerConfig) (hostConfig : HostConfig)
    (existingId : List Char) (info : InspectResponse)
    (hfind : findExistingContainer e containerName = some existingId)
    (hinsp : inspectContainer e existingId = some info)
    (hcmp : compareContainerConfig info config hostConfig = true) :
    createContainer e containerName config hostConfig freshId =
      some (existingId,
        (if info.stateRunning then e else setRunning e existingId true),
        (if info.stateRunning then [] else [EngineEvent.start existingId])) ∧
      ∀ ev ∈ (if info.stateRunning then ([] : List EngineEvent)
          else [EngineEvent.start existingId]),
        ev = EngineEvent.start existingId := by
  constructor
  · simp only [createContainer, hfind, hinsp, hcmp, if_true]
    by_cases hr : info.stateRunning <;> simp [hr]
  · intro ev hev
    by_cases hr : info.stateRunning <;> simp [hr] at hev
    exact hev

/-- C5 witness: an engine holding one running container `w` whose recorded
configuration equals the desired configuration; redeploying returns its id
with no engine events. -/
theorem c5_idempotent_deploy_witness :
    createContainer
        ⟨[⟨['i', '1'], [['/', 'w']],
          ⟨['/', 'w'],
            ⟨"img".data, [], [], [], true, true, true, true, []⟩,
            ⟨"bridge".data, [], [], [], "unless-stopped".data, [], []⟩,
            true⟩⟩]⟩
        ['w']
        ⟨"img".data, [], [], [], true, true, true, true, []⟩
        ⟨"bridge".data, [], [], [], "unless-stopped".data, [], []⟩
        ['i', '2'] =
      some (['i', '1'],
        ⟨[⟨['i', '1'], [['/', 'w']],
          ⟨['/', 'w'],
            ⟨"img".data, [], [], [], true, true, true, true, []⟩,
            ⟨"bridge".data, [], [], [], "unless-stopped".data, [], []⟩,
            true⟩⟩]⟩,
        []) := by
  have h := c5_idempotent_deploy
    ⟨[⟨['i', '1'], [['/', 'w']],
      ⟨['/', 'w'],
        ⟨"img".data, [], [], [], true, true, true, true, []⟩,
        ⟨"bridge".data, [], [], [], "unless-stopped".data, [], []⟩,
        true⟩⟩]⟩
    ['w'] ['i', '2']
    ⟨"img".data, [], [], [], true, true, true, true, []⟩
    ⟨"bridge".data, [], [], [], "unless-stopped".data, [], []⟩
    ['i', '1']
    ⟨['/', 'w'],
      ⟨"img".data, [], [], [], true, true, true, true, []⟩,
      ⟨"bridge".data, [], [], [], "unless-stopped".data, [], []⟩,
      true⟩
    (by decide) (by decide) (by decide)
  simpa using h.1

end ToolHive
